import Mathlib

/-!
Shallow embedding of the visibility / social-graph / reaction core of the
blogging application (src/models.py and src/app.py).

Modelling conventions:
* Database rows become structures holding only the columns the verified
  operations read; `DateTime` columns become `Nat` timestamps.
* The three association tables (`followers`, `blog_likes`, `comment_likes`)
  each have a composite primary key over their two id columns, so a table is
  embedded as a `Finset (Nat × Nat)` of id pairs.
* The `users`, `blogs` and `comments` tables are embedded as lists of rows.
* `current_user` is an id; an anonymous / unauthenticated viewer is `none`.
* Flask responses are embedded as small inductive response types; the handler
  returns the new database state together with the response, and the error
  branches return the state unchanged (the handler commits nothing there).
-/

namespace TypedLines

/-- A row of the `users` table (src/models.py, class User), restricted to the
columns the verified operations read. -/
structure User where
  id : Nat
  username : String
deriving DecidableEq

/-- A row of the `blogs` table (src/models.py, class Blog), restricted to the
columns the verified operations read. -/
structure Blog where
  id : Nat
  userId : Nat
  isPublic : Bool
  isFeatured : Bool
  dateCreated : Nat
deriving DecidableEq

/-- A row of the `comments` table (src/models.py, class Comment), restricted
to the columns the verified operations read. -/
structure Comment where
  id : Nat
  userId : Nat
  blogId : Nat
  content : String
deriving DecidableEq

/-- The database state: the three entity tables and the three association
tables.  Each association table has a composite primary key over its two id
columns (src/models.py lines 9-25), so it is a finite set of id pairs. -/
structure DB where
  users : List User
  blogs : List Blog
  comments : List Comment
  followEdges : Finset (Nat × Nat)
  blogLikes : Finset (Nat × Nat)
  commentLikes : Finset (Nat × Nat)
deriving DecidableEq

/-- `User.is_following` (src/models.py line 82): the follower table holds a
row `(a, b)`. -/
def is_following (edges : Finset (Nat × Nat)) (a b : Nat) : Bool :=
  decide ((a, b) ∈ edges)

/-- `User.follow` (src/models.py line 74): append the edge unless it is
already present. -/
def follow (edges : Finset (Nat × Nat)) (a b : Nat) : Finset (Nat × Nat) :=
  if is_following edges a b then edges else insert (a, b) edges

/-- `User.unfollow` (src/models.py line 78): remove the edge if present. -/
def unfollow (edges : Finset (Nat × Nat)) (a b : Nat) : Finset (Nat × Nat) :=
  if is_following edges a b then edges.erase (a, b) else edges

/-- `User.has_liked_blog` (src/models.py line 93). -/
def has_liked_blog (likes : Finset (Nat × Nat)) (u bid : Nat) : Bool :=
  decide ((u, bid) ∈ likes)

/-- `User.like_blog` (src/models.py line 85). -/
def like_blog (likes : Finset (Nat × Nat)) (u bid : Nat) : Finset (Nat × Nat) :=
  if has_liked_blog likes u bid then likes else insert (u, bid) likes

/-- `User.unlike_blog` (src/models.py line 89). -/
def unlike_blog (likes : Finset (Nat × Nat)) (u bid : Nat) : Finset (Nat × Nat) :=
  if has_liked_blog likes u bid then likes.erase (u, bid) else likes

/-- `User.has_liked_comment` (src/models.py line 104). -/
def has_liked_comment (likes : Finset (Nat × Nat)) (u cid : Nat) : Bool :=
  decide ((u, cid) ∈ likes)

/-- `User.like_comment` (src/models.py line 96). -/
def like_comment (likes : Finset (Nat × Nat)) (u cid : Nat) : Finset (Nat × Nat) :=
  if has_liked_comment likes u cid then likes else insert (u, cid) likes

/-- `User.unlike_comment` (src/models.py line 100). -/
def unlike_comment (likes : Finset (Nat × Nat)) (u cid : Nat) : Finset (Nat × Nat) :=
  if has_liked_comment likes u cid then likes.erase (u, cid) else likes

/-- `Blog.likes_count` / `Comment.likes_count` (src/models.py lines 127-129
and 160-162): `self.liked_by.count()`, the number of rows of the like table
whose target column is this row's id. -/
def likes_count (likes : Finset (Nat × Nat)) (t : Nat) : Nat :=
  (likes.filter (fun e => e.2 = t)).card

/-- The quantity claim C6 compares the stored counts to: the number of
distinct users holding a live like edge to the target. -/
def distinct_likers (likes : Finset (Nat × Nat)) (t : Nat) : Nat :=
  ((likes.filter (fun e => e.2 = t)).image Prod.fst).card

/-- `Blog.can_view` (src/models.py lines 135-146).  The viewer is `none` when
absent or unauthenticated. -/
def can_view (edges : Finset (Nat × Nat)) (blog : Blog) (viewer : Option Nat) : Bool :=
  if blog.isPublic then true
  else
    match viewer with
    | none => false
    | some uid =>
      if uid = blog.userId then true
      else if is_following edges uid blog.userId then true
      else false

/-- `User.query.filter_by(username=...).first()` (src/app.py line 303). -/
def findUserByUsername (s : DB) (uname : String) : Option User :=
  s.users.find? (fun u => u.username == uname)

/-- `Blog.query.get_or_404(id)` lookup by primary key. -/
def findBlog (s : DB) (bid : Nat) : Option Blog :=
  s.blogs.find? (fun b => b.id == bid)

/-- `Comment.query.get_or_404(id)` lookup by primary key. -/
def findComment (s : DB) (cid : Nat) : Option Comment :=
  s.comments.find? (fun c => c.id == cid)

/-- `user.followers.count()` (src/app.py lines 313 and 317): rows of the
follower table whose followed column is this user's id. -/
def followers_count (edges : Finset (Nat × Nat)) (uid : Nat) : Nat :=
  (edges.filter (fun e => e.2 = uid)).card

/-- The JSON responses of the `toggle_follow` handler. -/
inductive FollowResp where
  | followed : Nat → FollowResp
  | unfollowed : Nat → FollowResp
  | userNotFound : FollowResp
  | selfFollow : FollowResp
deriving DecidableEq

/-- The HTTP status the `toggle_follow` handler attaches to each response. -/
def followStatus : FollowResp → Nat
  | .followed _ => 200
  | .unfollowed _ => 200
  | .userNotFound => 404
  | .selfFollow => 400

/-- The `toggle_follow` handler (src/app.py lines 300-317).  The error
branches commit nothing, so they return the state unchanged; `user ==
current_user` compares rows of a table keyed by id, hence id equality. -/
def toggle_follow (s : DB) (actorId : Nat) (uname : String) : DB × FollowResp :=
  match findUserByUsername s uname with
  | none => (s, .userNotFound)
  | some u =>
    if u.id = actorId then (s, .selfFollow)
    else if is_following s.followEdges actorId u.id then
      let edges := unfollow s.followEdges actorId u.id
      ({ s with followEdges := edges }, .unfollowed (followers_count edges u.id))
    else
      let edges := follow s.followEdges actorId u.id
      ({ s with followEdges := edges }, .followed (followers_count edges u.id))

/-- The JSON responses of the two like-toggle handlers. -/
inductive LikeResp where
  | liked : Nat → LikeResp
  | unliked : Nat → LikeResp
  | targetNotFound : LikeResp
deriving DecidableEq

/-- The `toggle_like_blog` handler (src/app.py lines 319-331). -/
def toggle_like_blog (s : DB) (actorId bid : Nat) : DB × LikeResp :=
  match findBlog s bid with
  | none => (s, .targetNotFound)
  | some blog =>
    if has_liked_blog s.blogLikes actorId blog.id then
      let likes := unlike_blog s.blogLikes actorId blog.id
      ({ s with blogLikes := likes }, .unliked (likes_count likes blog.id))
    else
      let likes := like_blog s.blogLikes actorId blog.id
      ({ s with blogLikes := likes }, .liked (likes_count likes blog.id))

/-- The `toggle_like_comment` handler (src/app.py lines 333-345). -/
def toggle_like_comment (s : DB) (actorId cid : Nat) : DB × LikeResp :=
  match findComment s cid with
  | none => (s, .targetNotFound)
  | some comment =>
    if has_liked_comment s.commentLikes actorId comment.id then
      let likes := unlike_comment s.commentLikes actorId comment.id
      ({ s with commentLikes := likes }, .unliked (likes_count likes comment.id))
    else
      let likes := like_comment s.commentLikes actorId comment.id
      ({ s with commentLikes := likes }, .liked (likes_count likes comment.id))

/-- Responses of the two delete handlers. -/
inductive DeleteResp where
  | ok : DeleteResp
  | unauthorized : DeleteResp
  | notFound : DeleteResp
deriving DecidableEq

/-- The `delete_blog` handler (src/app.py lines 285-298) together with the
store-level cascades it triggers: the `cascade='all, delete-orphan'` setting
on `Blog.comments` (src/models.py line 125) deletes the blog's comments, and
deleting a row referenced from an association table deletes the association
rows referencing it (`blog_likes` rows of the blog, `comment_likes` rows of
the deleted comments). -/
def delete_blog (s : DB) (actorId bid : Nat) : DB × DeleteResp :=
  match findBlog s bid with
  | none => (s, .notFound)
  | some blog =>
    if blog.userId ≠ actorId then (s, .unauthorized)
    else
      let deletedCommentIds := (s.comments.filter (fun c => c.blogId == blog.id)).map (fun c => c.id)
      ({ s with
          blogs := s.blogs.filter (fun b => b.id != blog.id),
          comments := s.comments.filter (fun c => c.blogId != blog.id),
          blogLikes := s.blogLikes.filter (fun e => e.2 ≠ blog.id),
          commentLikes := s.commentLikes.filter (fun e => e.2 ∉ deletedCommentIds) },
        .ok)

/-- The `delete_comment` handler (src/app.py lines 379-395): 404 when the
comment does not exist, 403 unless the actor is the comment's author or the
owning blog's author, otherwise delete the comment (and, at the store level,
the `comment_likes` rows referencing it). -/
def delete_comment (s : DB) (actorId cid : Nat) : DB × DeleteResp :=
  match findComment s cid with
  | none => (s, .notFound)
  | some c =>
    match findBlog s c.blogId with
    | none => (s, .notFound)
    | some b =>
      if actorId ≠ c.userId ∧ actorId ≠ b.userId then (s, .unauthorized)
      else
        ({ s with
            comments := s.comments.filter (fun c2 => c2.id != c.id),
            commentLikes := s.commentLikes.filter (fun e => e.2 ≠ c.id) },
          .ok)

/-- The comment part of the JSON body the `add_comment` handler returns on
success (src/app.py lines 366-375), restricted to the fields the claims
read. -/
structure CommentJson where
  id : Nat
  content : String
  likesCount : Nat
deriving DecidableEq

/-- Responses of the `add_comment` handler. -/
inductive AddCommentResp where
  | success : CommentJson → AddCommentResp
  | blogNotFound : AddCommentResp
  | invalidForm : AddCommentResp
deriving DecidableEq

/-- The `add_comment` handler (src/app.py lines 347-377).  `formValid` stands
for `form.validate_on_submit()` (the form class is outside the repository
slice); `newId` is the primary key the store assigns to the inserted row,
assumed fresh in the theorems.  The success body reports the literal
`likes_count: 0`. -/
def add_comment (s : DB) (actorId bid : Nat) (content : String)
    (formValid : Bool) (newId : Nat) : DB × AddCommentResp :=
  match findBlog s bid with
  | none => (s, .blogNotFound)
  | some blog =>
    if formValid then
      ({ s with comments := s.comments ++ [{ id := newId, userId := actorId, blogId := blog.id, content := content }] },
        .success { id := newId, content := content, likesCount := 0 })
    else (s, .invalidForm)

/-- The descending comparison the feed uses: `a` sorts before `b` when `a`
was created no earlier than `b` (`order_by(Blog.date_created.desc())` and
`sort(key=..., reverse=True)`). -/
def blogDateGe (a b : Blog) : Bool :=
  decide (b.dateCreated ≤ a.dateCreated)

/-- Stable insertion of a blog into a date-descending list (the element moves
past every strictly newer or equally new element already present). -/
def orderedInsertDesc (a : Blog) : List Blog → List Blog
  | [] => [a]
  | b :: l => if blogDateGe a b then a :: b :: l else b :: orderedInsertDesc a l

/-- Stable date-descending sort, embedding both the SQL
`order_by(Blog.date_created.desc())` and Python's stable `list.sort` with
`reverse=True` (any two stable sorts under the same total preorder agree). -/
def sortByDateDesc : List Blog → List Blog
  | [] => []
  | a :: l => orderedInsertDesc a (sortByDateDesc l)

/-- Membership in `followed_ids` (src/app.py lines 73-75): the ids of the
users the viewer follows, plus the viewer's own id. -/
def inFollowedIds (s : DB) (viewerId uid : Nat) : Bool :=
  is_following s.followEdges viewerId uid || uid == viewerId

/-- The `recent_blogs` value the `index` handler renders (src/app.py lines
56-87): the six newest public blogs; for an authenticated viewer, the three
newest private blogs of followed users (viewer included) are merged in, the
combined list is deduplicated (`list(set(...))`), re-sorted by creation date
descending and cut to six. -/
def index_recent (s : DB) (viewer : Option Nat) : List Blog :=
  let recent_blogs := (sortByDateDesc (s.blogs.filter (fun b => b.isPublic))).take 6
  match viewer with
  | none => recent_blogs
  | some v =>
    let follower_blogs :=
      (sortByDateDesc (s.blogs.filter (fun b => !b.isPublic && inFollowedIds s v b.userId))).take 3
    let all_blogs := (recent_blogs ++ follower_blogs).dedup
    (sortByDateDesc all_blogs).take 6

/-- The recent feed exactly as claim C2 words it: the union of all public
posts and all private posts authored by the viewer or by a followed user,
deduplicated by post identity, ordered by creation date descending, truncated
to 6. -/
def recent_claimed (s : DB) (v : Nat) : List Blog :=
  (sortByDateDesc
    ((s.blogs.filter (fun b => b.isPublic) ++
      s.blogs.filter (fun b => !b.isPublic && inFollowedIds s v b.userId)).dedup)).take 6

/-- The recent feed as the amended claim words it: the union of all public
posts and the three newest private posts authored by the viewer or by a
followed user, deduplicated by post identity, ordered by creation date
descending, truncated to 6. -/
def recent_amended (s : DB) (v : Nat) : List Blog :=
  (sortByDateDesc
    ((s.blogs.filter (fun b => b.isPublic) ++
      (sortByDateDesc (s.blogs.filter (fun b => !b.isPublic && inFollowedIds s v b.userId))).take 3).dedup)).take 6

/-- A private blog row used by the concrete databases below. -/
def privBlog (i d : Nat) : Blog :=
  { id := i, userId := 1, isPublic := false, isFeatured := false, dateCreated := d }

/-- A database with four private blogs all authored by user 1 and no follow
or like edges: the concrete input separating the handler's recent feed from
the claimed one. -/
def feedDb : DB :=
  { users := [{ id := 1, username := "alice" }],
    blogs := [privBlog 1 10, privBlog 2 20, privBlog 3 30, privBlog 4 40],
    comments := [],
    followEdges := ∅,
    blogLikes := ∅,
    commentLikes := ∅ }

/-- A one-user database used to witness the self-follow rejection. -/
def selfDb : DB :=
  { users := [{ id := 1, username := "alice" }],
    blogs := [],
    comments := [],
    followEdges := ∅,
    blogLikes := ∅,
    commentLikes := ∅ }

/-- A database with one blog, one comment on it and a like edge on each,
used to witness the delete cascades and the authorization checks. -/
def contentDb : DB :=
  { users := [{ id := 1, username := "alice" }, { id := 2, username := "bob" }],
    blogs := [{ id := 5, userId := 1, isPublic := true, isFeatured := false, dateCreated := 7 }],
    comments := [{ id := 9, userId := 2, blogId := 5, content := "hi" }],
    followEdges := ∅,
    blogLikes := {(2, 5)},
    commentLikes := {(1, 9)} }

/-! ## Helper lemmas -/

theorem mem_follow_self (edges : Finset (Nat × Nat)) (a b : Nat) :
    (a, b) ∈ follow edges a b := by
  unfold follow
  split
  · next h => exact of_decide_eq_true h
  · exact Finset.mem_insert_self _ _

theorem follow_eq_of_mem {edges : Finset (Nat × Nat)} {a b : Nat}
    (h : (a, b) ∈ edges) : follow edges a b = edges := by
  unfold follow is_following
  simp [h]

theorem likes_count_eq_distinct_likers (likes : Finset (Nat × Nat)) (t : Nat) :
    likes_count likes t = distinct_likers likes t := by
  unfold likes_count distinct_likers
  symm
  apply Finset.card_image_of_injOn
  intro x hx y hy hxy
  have hx2 := (Finset.mem_filter.1 hx).2
  have hy2 := (Finset.mem_filter.1 hy).2
  exact Prod.ext hxy (hx2.trans hy2.symm)

theorem toggle_like_blog_twice_state (s : DB) (u bid : Nat) :
    ((toggle_like_blog (toggle_like_blog s u bid).1 u bid).1).blogLikes = s.blogLikes := by
  cases hf : findBlog s bid with
  | none =>
    simp only [toggle_like_blog, hf]
  | some blog =>
    by_cases hl : (u, blog.id) ∈ s.blogLikes
    · have h1 : (toggle_like_blog s u bid) =
          ({ s with blogLikes := s.blogLikes.erase (u, blog.id) },
            LikeResp.unliked (likes_count (s.blogLikes.erase (u, blog.id)) blog.id)) := by
        simp only [toggle_like_blog, hf, has_liked_blog, unlike_blog, hl]
        simp [hl]
      rw [h1]
      have hf2 : findBlog { s with blogLikes := s.blogLikes.erase (u, blog.id) } bid = some blog := hf
      simp only [toggle_like_blog, hf2, has_liked_blog, like_blog]
      have hne : (u, blog.id) ∉ s.blogLikes.erase (u, blog.id) := Finset.not_mem_erase _ _
      simp [hne, Finset.insert_erase hl]
    · have h1 : (toggle_like_blog s u bid) =
          ({ s with blogLikes := insert (u, blog.id) s.blogLikes },
            LikeResp.liked (likes_count (insert (u, blog.id) s.blogLikes) blog.id)) := by
        simp only [toggle_like_blog, hf, has_liked_blog, like_blog]
        simp [hl]
      rw [h1]
      have hf2 : findBlog { s with blogLikes := insert (u, blog.id) s.blogLikes } bid = some blog := hf
      simp only [toggle_like_blog, hf2, has_liked_blog, unlike_blog]
      have hmem : (u, blog.id) ∈ insert (u, blog.id) s.blogLikes := Finset.mem_insert_self _ _
      simp [hmem, Finset.erase_insert hl]

theorem toggle_like_comment_twice_state (s : DB) (u cid : Nat) :
    ((toggle_like_comment (toggle_like_comment s u cid).1 u cid).1).commentLikes = s.commentLikes := by
  cases hf : findComment s cid with
  | none =>
    simp only [toggle_like_comment, hf]
  | some c =>
    by_cases hl : (u, c.id) ∈ s.commentLikes
    · have h1 : (toggle_like_comment s u cid) =
          ({ s with commentLikes := s.commentLikes.erase (u, c.id) },
            LikeResp.unliked (likes_count (s.commentLikes.erase (u, c.id)) c.id)) := by
        simp only [toggle_like_comment, hf, has_liked_comment, unlike_comment]
        simp [hl]
      rw [h1]
      have hf2 : findComment { s with commentLikes := s.commentLikes.erase (u, c.id) } cid = some c := hf
      simp only [toggle_like_comment, hf2, has_liked_comment, like_comment]
      have hne : (u, c.id) ∉ s.commentLikes.erase (u, c.id) := Finset.not_mem_erase _ _
      simp [hne, Finset.insert_erase hl]
    · have h1 : (toggle_like_comment s u cid) =
          ({ s with commentLikes := insert (u, c.id) s.commentLikes },
            LikeResp.liked (likes_count (insert (u, c.id) s.commentLikes) c.id)) := by
        simp only [toggle_like_comment, hf, has_liked_comment, like_comment]
        simp [hl]
      rw [h1]
      have hf2 : findComment { s with commentLikes := insert (u, c.id) s.commentLikes } cid = some c := hf
      simp only [toggle_like_comment, hf2, has_liked_comment, unlike_comment]
      have hmem : (u, c.id) ∈ insert (u, c.id) s.commentLikes := Finset.mem_insert_self _ _
      simp [hmem, Finset.erase_insert hl]

/-! ## Claim theorems -/

/-- C1: `can_view` grants access exactly when the post is public, or the
viewer is an authenticated user who is the post's author or follows the
author; in every remaining case — private post with an absent viewer, or an
authenticated viewer who is neither author nor follower — it denies
access. -/
theorem can_view_characterization (edges : Finset (Nat × Nat)) (blog : Blog) (viewer : Option Nat) :
    can_view edges blog viewer = true ↔
      (blog.isPublic = true ∨
        ∃ uid, viewer = some uid ∧
          (uid = blog.userId ∨ is_following edges uid blog.userId = true)) := by
  unfold can_view
  cases viewer with
  | none =>
    by_cases hp : blog.isPublic <;> simp [hp]
  | some uid =>
    by_cases hp : blog.isPublic
    · simp [hp]
    · by_cases h1 : uid = blog.userId
      · simp [hp, h1]
      · by_cases h2 : is_following edges uid blog.userId <;> simp [hp, h1, h2]

/-- C4: for distinct users, `follow` makes `is_following` true, a second
`follow` is a no-op, and the table holds exactly one `(a, b)` edge (the
composite primary key rules out duplicates; `follow` inserts only a missing
edge). -/
theorem follow_then_following_single_edge (edges : Finset (Nat × Nat)) (a b : Nat)
    (hab : a ≠ b) :
    is_following (follow edges a b) a b = true ∧
    follow (follow edges a b) a b = follow edges a b ∧
    ((follow edges a b).filter (fun e => e = (a, b))).card = 1 := by
  have hmem := mem_follow_self edges a b
  refine ⟨decide_eq_true hmem, follow_eq_of_mem hmem, ?_⟩
  rw [Finset.filter_eq' (follow edges a b) (a, b), if_pos hmem, Finset.card_singleton]

/-- C4 witness: at the empty edge table with users 1 and 2. -/
theorem follow_then_following_single_edge_witness :
    is_following (follow ∅ 1 2) 1 2 = true ∧
    follow (follow ∅ 1 2) 1 2 = follow ∅ 1 2 ∧
    ((follow ∅ 1 2).filter (fun e => e = (1, 2))).card = 1 :=
  follow_then_following_single_edge ∅ 1 2 (by decide)

/-- C5: toggling a like twice — on a blog or on a comment, from any starting
state — restores both the `hasLiked` flag and the likes count to their
original values. -/
theorem toggle_like_twice_restores (s : DB) (u bid cid : Nat) :
    has_liked_blog ((toggle_like_blog (toggle_like_blog s u bid).1 u bid).1).blogLikes u bid
        = has_liked_blog s.blogLikes u bid ∧
    likes_count ((toggle_like_blog (toggle_like_blog s u bid).1 u bid).1).blogLikes bid
        = likes_count s.blogLikes bid ∧
    has_liked_comment ((toggle_like_comment (toggle_like_comment s u cid).1 u cid).1).commentLikes u cid
        = has_liked_comment s.commentLikes u cid ∧
    likes_count ((toggle_like_comment (toggle_like_comment s u cid).1 u cid).1).commentLikes cid
        = likes_count s.commentLikes cid := by
  rw [toggle_like_blog_twice_state, toggle_like_comment_twice_state]
  exact ⟨rfl, rfl, rfl, rfl⟩

/-- C6: a blog's and a comment's `likes_count` always equals the number of
distinct users holding a live like edge to that target — in every state, and
in particular in the states produced by every like and unlike operation (the
count is recomputed from the live edge set on each read, never cached). -/
theorem likes_count_is_distinct_likers (s : DB) (u bid cid : Nat) :
    likes_count s.blogLikes bid = distinct_likers s.blogLikes bid ∧
    likes_count s.commentLikes cid = distinct_likers s.commentLikes cid ∧
    likes_count (like_blog s.blogLikes u bid) bid = distinct_likers (like_blog s.blogLikes u bid) bid ∧
    likes_count (unlike_blog s.blogLikes u bid) bid = distinct_likers (unlike_blog s.blogLikes u bid) bid ∧
    likes_count (like_comment s.commentLikes u cid) cid = distinct_likers (like_comment s.commentLikes u cid) cid ∧
    likes_count (unlike_comment s.commentLikes u cid) cid = distinct_likers (unlike_comment s.commentLikes u cid) cid :=
  ⟨likes_count_eq_distinct_likers _ _, likes_count_eq_distinct_likers _ _,
   likes_count_eq_distinct_likers _ _, likes_count_eq_distinct_likers _ _,
   likes_count_eq_distinct_likers _ _, likes_count_eq_distinct_likers _ _⟩

theorem findUserByUsername_self {s : DB} {A : User}
    (h1 : A ∈ s.users) (h2 : (s.users.map (fun u => u.username)).Nodup) :
    findUserByUsername s A.username = some A := by
  unfold findUserByUsername
  cases hf : s.users.find? (fun u => u.username == A.username) with
  | none =>
    exfalso
    have := List.find?_eq_none.1 hf A h1
    simp at this
  | some u =>
    have hpu := List.find?_some hf
    have hu : u ∈ s.users := List.mem_of_find?_eq_some hf
    have heq : u = A := List.inj_on_of_nodup_map h2 hu h1 (by simpa using hpu)
    rw [heq]

/-- C3: a user who targets their own username at the `toggle_follow` endpoint
is always rejected with the 400 self-follow error, and the state — in
particular the follow-edge table — is unchanged. -/
theorem toggle_follow_self_rejected (s : DB) (A : User)
    (h1 : A ∈ s.users) (h2 : (s.users.map (fun u => u.username)).Nodup) :
    toggle_follow s A.id A.username = (s, FollowResp.selfFollow) ∧
    followStatus FollowResp.selfFollow = 400 := by
  have hf := findUserByUsername_self h1 h2
  refine ⟨?_, rfl⟩
  simp [toggle_follow, hf]

/-- C3 witness: the one-user database, user 1 following themselves. -/
theorem toggle_follow_self_rejected_witness :
    toggle_follow selfDb 1 "alice" = (selfDb, FollowResp.selfFollow) ∧
    followStatus FollowResp.selfFollow = 400 :=
  toggle_follow_self_rejected selfDb { id := 1, username := "alice" } (by decide) (by decide)

/-- C10: a `toggle_follow` call never touches the users, blogs, comments or
like tables; on the not-found and self-follow branches the whole state is
unchanged; and in the followed and unfollowed branches every follow edge
other than the `(actor, target)` pair keeps its membership. -/
theorem toggle_follow_frame (s : DB) (actorId : Nat) (uname : String) :
    ((toggle_follow s actorId uname).1.users = s.users ∧
     (toggle_follow s actorId uname).1.blogs = s.blogs ∧
     (toggle_follow s actorId uname).1.comments = s.comments ∧
     (toggle_follow s actorId uname).1.blogLikes = s.blogLikes ∧
     (toggle_follow s actorId uname).1.commentLikes = s.commentLikes) ∧
    (findUserByUsername s uname = none → (toggle_follow s actorId uname).1 = s) ∧
    ∀ u, findUserByUsername s uname = some u →
      (u.id = actorId → (toggle_follow s actorId uname).1 = s) ∧
      ∀ p : Nat × Nat, p ≠ (actorId, u.id) →
        (p ∈ (toggle_follow s actorId uname).1.followEdges ↔ p ∈ s.followEdges) := by
  cases hf : findUserByUsername s uname with
  | none =>
    have ht : toggle_follow s actorId uname = (s, FollowResp.userNotFound) := by
      simp [toggle_follow, hf]
    rw [ht]
    refine ⟨⟨rfl, rfl, rfl, rfl, rfl⟩, fun _ => rfl, fun u hu => ?_⟩
    exact absurd hu (by simp)
  | some u0 =>
    by_cases hid : u0.id = actorId
    · have ht : toggle_follow s actorId uname = (s, FollowResp.selfFollow) := by
        simp [toggle_follow, hf, hid]
      rw [ht]
      refine ⟨⟨rfl, rfl, rfl, rfl, rfl⟩, fun _ => rfl, fun u hu => ?_⟩
      cases hu
      exact ⟨fun _ => rfl, fun p _ => Iff.rfl⟩
    · by_cases hfol : is_following s.followEdges actorId u0.id
      · have ht : toggle_follow s actorId uname =
            ({ s with followEdges := s.followEdges.erase (actorId, u0.id) },
              FollowResp.unfollowed (followers_count (s.followEdges.erase (actorId, u0.id)) u0.id)) := by
          simp [toggle_follow, hf, hid, hfol, unfollow]
        rw [ht]
        refine ⟨⟨rfl, rfl, rfl, rfl, rfl⟩, fun hn => absurd hn (by simp), fun u hu => ?_⟩
        cases hu
        refine ⟨fun h => absurd h hid, fun p hp => ?_⟩
        show p ∈ s.followEdges.erase (actorId, u0.id) ↔ p ∈ s.followEdges
        rw [Finset.mem_erase]
        exact ⟨fun h => h.2, fun h => ⟨hp, h⟩⟩
      · have ht : toggle_follow s actorId uname =
            ({ s with followEdges := insert (actorId, u0.id) s.followEdges },
              FollowResp.followed (followers_count (insert (actorId, u0.id) s.followEdges) u0.id)) := by
          simp [toggle_follow, hf, hid, hfol, follow]
        rw [ht]
        refine ⟨⟨rfl, rfl, rfl, rfl, rfl⟩, fun hn => absurd hn (by simp), fun u hu => ?_⟩
        cases hu
        refine ⟨fun h => absurd h hid, fun p hp => ?_⟩
        show p ∈ insert (actorId, u0.id) s.followEdges ↔ p ∈ s.followEdges
        rw [Finset.mem_insert]
        exact ⟨fun h => h.resolve_left hp, fun h => Or.inr h⟩

/-- C7: deleting a blog (by its author) removes the blog, all of its
comments, every like edge on the blog, and every like edge on any of its
comments: in the resulting state nothing references the deleted post or its
deleted comments. -/
theorem delete_blog_cascades (s : DB) (actorId bid : Nat) (b : Blog)
    (h1 : findBlog s bid = some b) (h2 : b.userId = actorId) :
    (delete_blog s actorId bid).2 = DeleteResp.ok ∧
    ((delete_blog s actorId bid).1).blogs.filter (fun b2 => b2.id == bid) = [] ∧
    ((delete_blog s actorId bid).1).comments.filter (fun c => c.blogId == bid) = [] ∧
    ((delete_blog s actorId bid).1).blogLikes.filter (fun e => e.2 = bid) = ∅ ∧
    ((delete_blog s actorId bid).1).commentLikes.filter
        (fun e => e.2 ∈ (s.comments.filter (fun c => c.blogId == bid)).map (fun c => c.id)) = ∅ := by
  have hbid : b.id = bid := by
    have := List.find?_some (by simpa [findBlog] using h1)
    simpa using this
  subst hbid
  subst h2
  have ht : delete_blog s b.userId b.id =
      ({ s with
          blogs := s.blogs.filter (fun b2 => b2.id != b.id),
          comments := s.comments.filter (fun c => c.blogId != b.id),
          blogLikes := s.blogLikes.filter (fun e => e.2 ≠ b.id),
          commentLikes := s.commentLikes.filter
            (fun e => e.2 ∉ (s.comments.filter (fun c => c.blogId == b.id)).map (fun c => c.id)) },
        DeleteResp.ok) := by
    simp [delete_blog, h1]
  rw [ht]
  refine ⟨rfl, ?_, ?_, ?_, ?_⟩
  · rw [List.filter_filter]
    apply List.filter_eq_nil_iff.2
    intro a _
    by_cases h : a.id = b.id <;> simp [h]
  · rw [List.filter_filter]
    apply List.filter_eq_nil_iff.2
    intro a _
    by_cases h : a.blogId = b.id <;> simp [h]
  · rw [Finset.filter_filter]
    apply Finset.eq_empty_iff_forall_not_mem.2
    intro e he
    exact (Finset.mem_filter.1 he).2.1 (Finset.mem_filter.1 he).2.2
  · rw [Finset.filter_filter]
    apply Finset.eq_empty_iff_forall_not_mem.2
    intro e he
    exact (Finset.mem_filter.1 he).2.1 (Finset.mem_filter.1 he).2.2

/-- C7 witness: the delete cascades at the concrete content database. -/
theorem delete_blog_cascades_witness :
    (delete_blog contentDb 1 5).2 = DeleteResp.ok ∧
    ((delete_blog contentDb 1 5).1).blogs.filter (fun b2 => b2.id == 5) = [] ∧
    ((delete_blog contentDb 1 5).1).comments.filter (fun c => c.blogId == 5) = [] ∧
    ((delete_blog contentDb 1 5).1).blogLikes.filter (fun e => e.2 = 5) = ∅ ∧
    ((delete_blog contentDb 1 5).1).commentLikes.filter
        (fun e => e.2 ∈ (contentDb.comments.filter (fun c => c.blogId == 5)).map (fun c => c.id)) = ∅ :=
  delete_blog_cascades contentDb 1 5
    { id := 5, userId := 1, isPublic := true, isFeatured := false, dateCreated := 7 }
    (by decide) (by decide)

/-- C8: the `delete_comment` endpoint succeeds exactly when the actor is the
comment's author or the owning blog's author; any other actor gets the 403
unauthorized response and the state — the comment included — is untouched. -/
theorem delete_comment_auth (s : DB) (actorId cid : Nat) (c : Comment) (b : Blog)
    (h1 : findComment s cid = some c) (h2 : findBlog s c.blogId = some b) :
    ((delete_comment s actorId cid).2 = DeleteResp.ok ↔ (actorId = c.userId ∨ actorId = b.userId)) ∧
    (¬(actorId = c.userId ∨ actorId = b.userId) →
      delete_comment s actorId cid = (s, DeleteResp.unauthorized)) := by
  by_cases hcase : actorId ≠ c.userId ∧ actorId ≠ b.userId
  · have ht : delete_comment s actorId cid = (s, DeleteResp.unauthorized) := by
      simp only [delete_comment, h1, h2]
      rw [if_pos hcase]
    rw [ht]
    constructor
    · simp only []
      constructor
      · intro h; exact absurd h (by simp)
      · intro h; exact absurd h (by rcases hcase with ⟨hc1, hc2⟩; push_neg; exact ⟨hc1, hc2⟩)
    · intro _; rfl
  · have hor : actorId = c.userId ∨ actorId = b.userId := by
      by_contra hno
      push_neg at hno
      exact hcase ⟨hno.1, hno.2⟩
    have ht : delete_comment s actorId cid =
        ({ s with
            comments := s.comments.filter (fun c2 => c2.id != c.id),
            commentLikes := s.commentLikes.filter (fun e => e.2 ≠ c.id) },
          DeleteResp.ok) := by
      simp only [delete_comment, h1, h2]
      rw [if_neg hcase]
    rw [ht]
    exact ⟨by simp [hor], fun h => absurd hor h⟩

/-- C8 witness: the comment's author (user 2) may delete comment 9 of the
content database. -/
theorem delete_comment_auth_witness :
    (delete_comment contentDb 2 9).2 = DeleteResp.ok ↔ ((2 : Nat) = 2 ∨ (2 : Nat) = 1) :=
  (delete_comment_auth contentDb 2 9
    { id := 9, userId := 2, blogId := 5, content := "hi" }
    { id := 5, userId := 1, isPublic := true, isFeatured := false, dateCreated := 7 }
    (by decide) (by decide)).1

/-- C9: a successful `add_comment` call reports `likes_count: 0` for the new
comment, and that value is correct: with a fresh comment id and no dangling
like edges, the new comment's live like-edge set is empty. -/
theorem add_comment_reports_zero_likes (s : DB) (actorId bid newId : Nat)
    (content : String) (blog : Blog)
    (h1 : findBlog s bid = some blog)
    (h2 : ∀ e ∈ s.commentLikes, ∃ c ∈ s.comments, c.id = e.2)
    (h3 : ∀ c ∈ s.comments, c.id ≠ newId) :
    (add_comment s actorId bid content true newId).2 =
      AddCommentResp.success { id := newId, content := content, likesCount := 0 } ∧
    likes_count ((add_comment s actorId bid content true newId).1).commentLikes newId = 0 := by
  have ht : add_comment s actorId bid content true newId =
      ({ s with comments := s.comments ++
          [{ id := newId, userId := actorId, blogId := blog.id, content := content }] },
        AddCommentResp.success { id := newId, content := content, likesCount := 0 }) := by
    simp [add_comment, h1]
  rw [ht]
  refine ⟨rfl, ?_⟩
  unfold likes_count
  rw [Finset.card_eq_zero]
  apply Finset.eq_empty_iff_forall_not_mem.2
  intro e he
  have hm := Finset.mem_filter.1 he
  obtain ⟨c, hc, hcid⟩ := h2 e hm.1
  exact h3 c hc (hcid.trans hm.2)

/-- C9 witness: user 2 comments on blog 5 of the content database, the store
assigning the fresh id 10. -/
theorem add_comment_reports_zero_likes_witness :
    (add_comment contentDb 2 5 "yo" true 10).2 =
      AddCommentResp.success { id := 10, content := "yo", likesCount := 0 } ∧
    likes_count ((add_comment contentDb 2 5 "yo" true 10).1).commentLikes 10 = 0 :=
  add_comment_reports_zero_likes contentDb 2 5 10 "yo"
    { id := 5, userId := 1, isPublic := true, isFeatured := false, dateCreated := 7 }
    (by decide) (by decide) (by decide)

/-! ## Sorting lemmas for the feed claim -/

theorem blogDateGe_trans (a b c : Blog) (h1 : blogDateGe a b = true) (h2 : blogDateGe b c = true) :
    blogDateGe a c = true := by
  unfold blogDateGe at *
  have h1' := of_decide_eq_true h1
  have h2' := of_decide_eq_true h2
  exact decide_eq_true (Nat.le_trans h2' h1')

theorem blogDateGe_total (a b : Blog) : (blogDateGe a b || blogDateGe b a) = true := by
  unfold blogDateGe
  rcases Nat.le_total b.dateCreated a.dateCreated with h | h
  · simp [h]
  · simp [h]

theorem blogDateGe_of_not (a b : Blog) (h : ¬ blogDateGe a b = true) : blogDateGe b a = true := by
  have := blogDateGe_total a b
  rcases Bool.or_eq_true_iff.1 this with h1 | h1
  · exact absurd h1 h
  · exact h1

theorem orderedInsertDesc_perm (a : Blog) (l : List Blog) :
    (orderedInsertDesc a l).Perm (a :: l) := by
  induction l with
  | nil => exact List.Perm.refl _
  | cons b t ih =>
    unfold orderedInsertDesc
    split
    · exact List.Perm.refl _
    · exact (ih.cons b).trans (List.Perm.swap a b t)

theorem sortByDateDesc_perm (l : List Blog) : (sortByDateDesc l).Perm l := by
  induction l with
  | nil => exact List.Perm.refl _
  | cons a t ih =>
    exact (orderedInsertDesc_perm a (sortByDateDesc t)).trans (ih.cons a)

theorem orderedInsertDesc_sorted (a : Blog) (l : List Blog)
    (h : l.Pairwise (fun x y => blogDateGe x y = true)) :
    (orderedInsertDesc a l).Pairwise (fun x y => blogDateGe x y = true) := by
  induction l with
  | nil => simp [orderedInsertDesc]
  | cons b t ih =>
    unfold orderedInsertDesc
    split
    · next hab =>
      refine List.Pairwise.cons ?_ h
      intro z hz
      rcases List.mem_cons.1 hz with rfl | hz
      · exact hab
      · exact blogDateGe_trans a b z hab (List.rel_of_pairwise_cons h hz)
    · next hab =>
      refine List.Pairwise.cons ?_ (ih h.tail)
      intro z hz
      have hz' := (orderedInsertDesc_perm a t).mem_iff.1 hz
      rcases List.mem_cons.1 hz' with rfl | hz'
      · exact blogDateGe_of_not _ _ hab
      · exact List.rel_of_pairwise_cons h hz'

theorem sortByDateDesc_sorted (l : List Blog) :
    (sortByDateDesc l).Pairwise (fun x y => blogDateGe x y = true) := by
  induction l with
  | nil => simp [sortByDateDesc]
  | cons a t ih => exact orderedInsertDesc_sorted a (sortByDateDesc t) ih

theorem sortByDateDesc_of_sorted {l : List Blog}
    (h : l.Pairwise (fun x y => blogDateGe x y = true)) :
    sortByDateDesc l = l := by
  induction l with
  | nil => rfl
  | cons a t ih =>
    show orderedInsertDesc a (sortByDateDesc t) = a :: t
    rw [ih h.tail]
    cases t with
    | nil => rfl
    | cons b t2 =>
      show (if blogDateGe a b = true then a :: b :: t2 else b :: orderedInsertDesc a t2) = a :: b :: t2
      rw [if_pos (List.rel_of_pairwise_cons h (List.mem_cons_self b t2))]

theorem eq_of_perm_of_sorted_of_nodup_dates {P Q : List Blog} (hpq : P.Perm Q)
    (hP : P.Pairwise (fun x y => blogDateGe x y = true))
    (hQ : Q.Pairwise (fun x y => blogDateGe x y = true))
    (hnd : (P.map Blog.dateCreated).Nodup) : P = Q := by
  haveI : IsAntisymm Blog (fun x y => y.dateCreated < x.dateCreated) :=
    ⟨fun a b h1 h2 => (Nat.lt_asymm h1 h2).elim⟩
  have hndQ : (Q.map Blog.dateCreated).Nodup := (hpq.map Blog.dateCreated).nodup hnd
  have strictP : P.Pairwise (fun x y => y.dateCreated < x.dateCreated) := by
    have hne : P.Pairwise (fun x y => x.dateCreated ≠ y.dateCreated) :=
      List.pairwise_map.1 hnd
    exact (hP.and hne).imp (fun h =>
      Nat.lt_of_le_of_ne (of_decide_eq_true h.1) (Ne.symm h.2))
  have strictQ : Q.Pairwise (fun x y => y.dateCreated < x.dateCreated) := by
    have hne : Q.Pairwise (fun x y => x.dateCreated ≠ y.dateCreated) :=
      List.pairwise_map.1 hndQ
    exact (hQ.and hne).imp (fun h =>
      Nat.lt_of_le_of_ne (of_decide_eq_true h.1) (Ne.symm h.2))
  exact List.eq_of_perm_of_sorted hpq strictP strictQ

theorem sortByDateDesc_append_eq_merge (X Y : List Blog)
    (h : ((X ++ Y).map Blog.dateCreated).Nodup) :
    sortByDateDesc (X ++ Y) = List.merge (sortByDateDesc X) (sortByDateDesc Y) blogDateGe := by
  apply eq_of_perm_of_sorted_of_nodup_dates
  · exact (sortByDateDesc_perm (X ++ Y)).trans
      (((sortByDateDesc_perm X).append (sortByDateDesc_perm Y)).symm.trans
        (List.merge_perm_append blogDateGe).symm)
  · exact sortByDateDesc_sorted (X ++ Y)
  · exact List.sorted_merge blogDateGe_trans blogDateGe_total _ _
      (sortByDateDesc_sorted X) (sortByDateDesc_sorted Y)
  · exact ((sortByDateDesc_perm (X ++ Y)).map Blog.dateCreated).symm.nodup h

theorem take_merge_take {α : Type} (le : α → α → Bool) :
    ∀ (k j : Nat) (X Y : List α), k ≤ j →
      (List.merge (X.take j) Y le).take k = (List.merge X Y le).take k := by
  intro k
  induction k with
  | zero => intro j X Y _; simp
  | succ k ih =>
    intro j X Y hkj
    cases X with
    | nil => simp
    | cons x xs =>
      cases j with
      | zero => omega
      | succ j =>
        cases Y with
        | nil =>
          rw [List.merge_right, List.merge_right, List.take_take]
          congr 1
          omega
        | cons y ys =>
          rw [List.take_succ_cons]
          by_cases hxy : le x y = true
          · rw [List.cons_merge_cons_pos le _ _ hxy, List.cons_merge_cons_pos le _ _ hxy,
              List.take_succ_cons, List.take_succ_cons]
            rw [ih j xs (y :: ys) (Nat.le_of_succ_le_succ hkj)]
          · rw [List.cons_merge_cons_neg le _ _ hxy, List.cons_merge_cons_neg le _ _ hxy,
              List.take_succ_cons, List.take_succ_cons]
            rw [← @List.take_succ_cons α x xs j]
            rw [ih (j + 1) (x :: xs) ys (Nat.le_of_succ_le hkj)]

theorem take_sort_append_take_sort (X Y : List Blog) (k n : Nat)
    (hXYd : ((X ++ Y).map Blog.dateCreated).Nodup) :
    (sortByDateDesc ((((sortByDateDesc X).take k) ++ ((sortByDateDesc Y).take n)).dedup)).take k =
    (sortByDateDesc ((X ++ ((sortByDateDesc Y).take n)).dedup)).take k := by
  have hsplit := hXYd
  rw [List.map_append, List.nodup_append] at hsplit
  obtain ⟨hXd, hYd, hdisj⟩ := hsplit
  have hAd : ((sortByDateDesc X).map Blog.dateCreated).Nodup :=
    ((sortByDateDesc_perm X).map Blog.dateCreated).symm.nodup hXd
  have hA'd : (((sortByDateDesc X).take k).map Blog.dateCreated).Nodup :=
    List.Nodup.sublist ((List.take_sublist k (sortByDateDesc X)).map Blog.dateCreated) hAd
  have hBd : (((sortByDateDesc Y).take n).map Blog.dateCreated).Nodup :=
    List.Nodup.sublist ((List.take_sublist n (sortByDateDesc Y)).map Blog.dateCreated)
      (((sortByDateDesc_perm Y).map Blog.dateCreated).symm.nodup hYd)
  have hBsubY : ∀ y ∈ (sortByDateDesc Y).take n, y ∈ Y := fun y hy =>
    (sortByDateDesc_perm Y).mem_iff.1 (List.mem_of_mem_take hy)
  have hA'B_d : ((((sortByDateDesc X).take k) ++ ((sortByDateDesc Y).take n)).map Blog.dateCreated).Nodup := by
    rw [List.map_append, List.nodup_append]
    refine ⟨hA'd, hBd, ?_⟩
    intro d hdA hdB
    obtain ⟨x, hx, hxd⟩ := List.mem_map.1 hdA
    obtain ⟨y, hy, hyd⟩ := List.mem_map.1 hdB
    have hxX : x ∈ X := (sortByDateDesc_perm X).mem_iff.1 (List.mem_of_mem_take hx)
    exact hdisj (List.mem_map_of_mem Blog.dateCreated hxX)
      (by rw [hxd, ← hyd]; exact List.mem_map_of_mem Blog.dateCreated (hBsubY y hy))
  have hXB_d : ((X ++ ((sortByDateDesc Y).take n)).map Blog.dateCreated).Nodup := by
    rw [List.map_append, List.nodup_append]
    refine ⟨hXd, hBd, ?_⟩
    intro d hdX hdB
    obtain ⟨y, hy, hyd⟩ := List.mem_map.1 hdB
    exact hdisj hdX (by rw [← hyd]; exact List.mem_map_of_mem Blog.dateCreated (hBsubY y hy))
  rw [List.dedup_eq_self.2 (List.Nodup.of_map Blog.dateCreated hA'B_d),
      List.dedup_eq_self.2 (List.Nodup.of_map Blog.dateCreated hXB_d)]
  have hsortA' : sortByDateDesc ((sortByDateDesc X).take k) = (sortByDateDesc X).take k :=
    sortByDateDesc_of_sorted
      (List.Pairwise.sublist (List.take_sublist k (sortByDateDesc X)) (sortByDateDesc_sorted X))
  have hsortB : sortByDateDesc ((sortByDateDesc Y).take n) = (sortByDateDesc Y).take n :=
    sortByDateDesc_of_sorted
      (List.Pairwise.sublist (List.take_sublist n (sortByDateDesc Y)) (sortByDateDesc_sorted Y))
  rw [sortByDateDesc_append_eq_merge _ _ hA'B_d, sortByDateDesc_append_eq_merge _ _ hXB_d,
      hsortA', hsortB]
  exact take_merge_take blogDateGe k k (sortByDateDesc X) ((sortByDateDesc Y).take n) (Nat.le_refl k)

/-- C2 counterexample: in the database with four private blogs all authored
by the viewer and no public blog, the handler's recent feed keeps only the
three newest private blogs, while the claimed feed — the union of all public
posts and all private posts of viewer and followed users — keeps all four. -/
theorem index_recent_ne_recent_claimed :
    index_recent feedDb (some 1) ≠ recent_claimed feedDb 1 := by decide

/-- C2 (amended): for an authenticated viewer, the recent feed equals the
union of all public posts and the three newest private posts authored by the
viewer or by a followed user, deduplicated by post identity, ordered by
creation date descending and truncated to 6 (stated for states whose
creation timestamps are pairwise distinct, where the order is fully
determined). -/
theorem index_recent_eq_recent_amended (s : DB) (v : Nat)
    (h : (s.blogs.map Blog.dateCreated).Nodup) :
    index_recent s (some v) = recent_amended s v := by
  have hsplit : ((s.blogs.filter (fun b => b.isPublic) ++
      s.blogs.filter (fun b => !b.isPublic && inFollowedIds s v b.userId)).map Blog.dateCreated).Nodup := by
    rw [List.map_append, List.nodup_append]
    refine ⟨List.Nodup.sublist ((List.filter_sublist s.blogs).map Blog.dateCreated) h,
            List.Nodup.sublist ((List.filter_sublist s.blogs).map Blog.dateCreated) h, ?_⟩
    intro d hdX hdY
    obtain ⟨x, hx, hxd⟩ := List.mem_map.1 hdX
    obtain ⟨y, hy, hyd⟩ := List.mem_map.1 hdY
    have hx1 := List.mem_filter.1 hx
    have hy1 := List.mem_filter.1 hy
    have hxy : x = y := List.inj_on_of_nodup_map h hx1.1 hy1.1 (hxd.trans hyd.symm)
    have hpub : x.isPublic = true := hx1.2
    have hpriv : y.isPublic = false := by
      have hb := hy1.2
      rw [Bool.and_eq_true] at hb
      simpa using hb.1
    rw [hxy, hpriv] at hpub
    cases hpub
  exact take_sort_append_take_sort (s.blogs.filter (fun b => b.isPublic))
    (s.blogs.filter (fun b => !b.isPublic && inFollowedIds s v b.userId)) 6 3 hsplit

/-- C2 witness: at the four-private-blog database the handler's feed agrees
with the amended description. -/
theorem index_recent_eq_recent_amended_witness :
    index_recent feedDb (some 1) = recent_amended feedDb 1 :=
  index_recent_eq_recent_amended feedDb 1 (by decide)

end TypedLines
